import Mathlib

/-!
Verification of the document-downloader (downloader.py / config.py) against its
natural-language specification.  Strings are modelled as lists of characters,
the filesystem as the list of existing paths, and the network as an oracle
giving the outcome of each HTTP attempt.
-/

namespace Downloader

/-- Strings are modelled as lists of characters. -/
abbrev Str := List Char

/-- config.py: `RETRY_ATTEMPTS = 3`. -/
def RETRY_ATTEMPTS : Nat := 3

/-- config.py: `CACHE_EXPIRY = 3600`. -/
def CACHE_EXPIRY : Nat := 3600

/-- downloader.py, `sanitize_filename`: the characters replaced by an
underscore, i.e. the character class of `re.sub(r'[\\/*?:"<>|]', "_", name)`. -/
def isInvalidChar (c : Char) : Bool :=
  c == '\\' || c == '/' || c == '*' || c == '?' || c == ':' || c == '"' ||
  c == '<' || c == '>' || c == '|'

/-- Python `s.endswith(p)` on the list-of-characters model. -/
def endsWithL (s p : Str) : Bool :=
  s.drop (s.length - p.length) == p

/-- Python `s.lower().endswith(".pdf")` (Char.toLower models str.lower, which
agrees on the case distinctions relevant to the `.pdf` suffix). -/
def endsPdfCI (s : Str) : Bool :=
  endsWithL (s.map Char.toLower) (".pdf".data)

/-- downloader.py, `sanitize_filename` (lines 274-290): replace every invalid
character by an underscore, truncate to 100 characters, then append ".pdf"
unless the truncated string already ends with ".pdf" case-insensitively. -/
def sanitize_filename (name : Str) : Str :=
  let s1 := name.map (fun c => if isInvalidChar c then '_' else c)
  let s2 := s1.take 100
  if endsPdfCI s2 then s2 else s2 ++ (".pdf".data)

/-- Transcription of the regex stated by the claim/spec,
anchored `[^\\/*?:"<>|]{1,104}` followed by a literal `.pdf`: the string
splits as a stem of 1 to 104 non-invalid characters followed by `.pdf`. -/
def matchesSpecRegex (s : Str) : Bool :=
  decide (5 ≤ s.length) && decide (s.length ≤ 108) &&
  (s.drop (s.length - 4) == ".pdf".data) &&
  (s.take (s.length - 4)).all (fun c => !isInvalidChar c)

/-- The shape the code actually guarantees: a stem of 0 to 100 non-invalid
characters followed by a case-insensitive `.pdf` extension. -/
def matchesSanitizedShape (s : Str) : Bool :=
  decide (4 ≤ s.length) && decide (s.length ≤ 104) &&
  ((s.drop (s.length - 4)).map Char.toLower == ".pdf".data) &&
  (s.take (s.length - 4)).all (fun c => !isInvalidChar c)

/-- os.path.join of the destination directory and a (relative, never
slash-containing) sanitized filename, as used by `download_document`
(line 225): the directory, a path separator, then the filename. -/
def pathJoin (dir filename : Str) : Str :=
  dir ++ ('/' :: filename)

/-- The target path a task computes: destination directory joined with the
sanitized reference (downloader.py lines 222-225). -/
def targetPath (dir doc_ref : Str) : Str :=
  pathJoin dir (sanitize_filename doc_ref)

/-- Outcome of one HTTP attempt, as seen by the code: either a transient
network/timeout exception from `session.get`, or a response with an HTTP
status code. -/
inductive FetchRes : Type where
  | netErr : FetchRes
  | http : Nat → FetchRes
deriving DecidableEq

/-- Whether an attempt gets past `response.raise_for_status()`:
a network error fails, and `raise_for_status` raises exactly for the
4xx/5xx status codes (400 ≤ status < 600); every other status that
surfaces (for example 200 or 304) is accepted. -/
def fetchOk : FetchRes → Bool
  | FetchRes.netErr => false
  | FetchRes.http s => !(decide (400 ≤ s) && decide (s < 600))

/-- How the retry loop of `get_page_content` (lines 99-114) and of
`download_document` (lines 241-265) terminates. -/
inductive AttemptOut : Type where
  | success : AttemptOut
  | writeFail : AttemptOut
  | exhausted : AttemptOut
deriving DecidableEq

/-- The retry loop `for attempt in range(RETRY_ATTEMPTS)`, started at attempt
index `a` with `remaining` iterations left (`remaining = R - a`; the current
attempt is the last one exactly when `remaining = 1`).  On a passing fetch the
body either returns (modelled by `writeOk = true`) or raises a non-request
exception while saving (`writeOk = false`, which the inner `except` clauses do
not catch, so no further attempt is made).  On a failing fetch the loop sleeps
`2 ** attempt` seconds and retries, except on the last attempt, which
re-raises.  The result is (outcome, number of network calls, backoff sleeps).
With `remaining = 0` the loop body never runs and the function falls through
(get_page_content returns None; download_document returns None, modelled as a
non-success outcome). -/
def runAttempts (net : Nat → FetchRes) (writeOk : Bool) :
    Nat → Nat → AttemptOut × Nat × List Nat
  | _, 0 => (AttemptOut.exhausted, 0, [])
  | a, r + 1 =>
    if fetchOk (net a) then
      if writeOk then (AttemptOut.success, 1, []) else (AttemptOut.writeFail, 1, [])
    else if r = 0 then
      (AttemptOut.exhausted, 1, [])
    else
      match runAttempts net writeOk (a + 1) r with
      | (o, n, s) => (o, n + 1, 2 ^ a :: s)

/-- downloader.py, `get_page_content` (lines 84-117): retry the GET up to
`retries` times; a final failure is re-raised, caught by the surrounding
handler, and surfaced as None (here: `false`).  Returns (success flag,
network calls made, backoff sleeps in order). -/
def get_page_content (net : Nat → FetchRes) (retries : Nat) :
    Bool × Nat × List Nat :=
  match runAttempts net true 0 retries with
  | (AttemptOut.success, n, s) => (true, n, s)
  | (_, n, s) => (false, n, s)

/-- Per-task result of `download_document` (lines 206-272): whether the task
succeeded, the string it reports (the sanitized filename on success, the
original `doc_ref` on failure), how many network calls it made, the backoff
sleeps it performed, whether it slept the jittered pre-fetch politeness delay,
and whether it was skipped because the target file already existed. -/
structure DlRes where
  success : Bool
  name : Str
  netCalls : Nat
  backoffSleeps : List Nat
  preDelay : Bool
  skipped : Bool
deriving DecidableEq

/-- downloader.py, `download_document` (lines 206-272).  `net guid attempt`
is the outcome of the HTTP attempt, `writeOk guid` whether saving the
response body succeeds (a failed save raises an OSError that the inner
`except` clauses do not catch, so it aborts the task; the write is modelled
all-or-nothing: no file appears on failure).  `fs` is the set of existing
paths; `add_delay` defaults to `True` as in the Python signature.  Returns
the task result and the updated filesystem.  (With zero retry attempts the
Python function falls off the end and returns None; that degenerate case is
modelled as a non-success result.) -/
def download_document (net : Str → Nat → FetchRes) (writeOk : Str → Bool)
    (retries : Nat) (fs : List Str) (guid doc_ref : Str) (dir : Str)
    (add_delay : Bool := true) : DlRes × List Str :=
  let filename := sanitize_filename doc_ref
  let file_path := pathJoin dir filename
  if file_path ∈ fs then
    (⟨true, filename, 0, [], false, true⟩, fs)
  else
    match runAttempts (net guid) (writeOk guid) 0 retries with
    | (AttemptOut.success, n, s) =>
      (⟨true, filename, n, s, add_delay, false⟩, file_path :: fs)
    | (AttemptOut.writeFail, n, s) =>
      (⟨false, doc_ref, n, s, add_delay, false⟩, fs)
    | (AttemptOut.exhausted, n, s) =>
      (⟨false, doc_ref, n, s, add_delay, false⟩, fs)

/-- Run the per-task algorithm over a batch of (guid, doc_ref) tasks,
threading the filesystem.  Both orchestrators invoke
`download_document` without an `add_delay` argument (the sequential loop at
line 318, and the parallel `partial` at line 351, which binds only
`download_url_base` and `download_dir`), so the Python default `True`
applies in both modes.  Returns the list of (task, result) pairs in task
order together with the final filesystem.  (The parallel collector observes
results in completion order; the counts and the set of outcomes proved about
below do not depend on that order.) -/
def runTasks (net : Str → Nat → FetchRes) (writeOk : Str → Bool)
    (retries : Nat) (dir : Str) :
    List (Str × Str) → List Str → List ((Str × Str) × DlRes) × List Str
  | [], fs => ([], fs)
  | (g, r) :: rest, fs =>
    match download_document net writeOk retries fs g r dir with
    | (res, fs2) =>
      match runTasks net writeOk retries dir rest fs2 with
      | (pairs, fs3) => (((g, r), res) :: pairs, fs3)

/-- `total_downloaded`: the count of tasks whose result was a success
(incremented per task in both orchestrators). -/
def totalDownloaded (pairs : List ((Str × Str) × DlRes)) : Nat :=
  (pairs.filter (fun p => p.2.success)).length

/-- `failed_downloads` as collected by `download_parallel` (lines 371-375):
the original `doc_ref` of every task whose result was not a success. -/
def failedDownloads (pairs : List ((Str × Str) × DlRes)) : List Str :=
  (pairs.filter (fun p => !p.2.success)).map (fun p => p.1.2)

/-- Total number of network calls performed by a batch. -/
def totalNetCalls (pairs : List ((Str × Str) × DlRes)) : Nat :=
  (pairs.map (fun p => p.2.netCalls)).sum

/-- Number of tasks skipped because their target file already existed. -/
def skippedCount (pairs : List ((Str × Str) × DlRes)) : Nat :=
  (pairs.filter (fun p => p.2.skipped)).length

/-- Python list slicing `xs[s:e]` for non-negative bounds: drop `s`, then
take `e - s`; out-of-range bounds clamp silently. -/
def pySlice {α : Type} (xs : List α) (s e : Nat) : List α :=
  (xs.drop s).take (e - s)

/-- downloader.py, `download_sequential` (lines 292-326): slice the batch
(`end_idx = len(documents)` when None), run the tasks in order, and return
`total_downloaded` — the Python function returns only this count.  The pair
list and final filesystem are the observable world effects, carried
alongside. -/
def download_sequential (net : Str → Nat → FetchRes) (writeOk : Str → Bool)
    (retries : Nat) (fs : List Str) (documents : List (Str × Str)) (dir : Str)
    (start_idx : Nat) (end_idx : Option Nat) :
    Nat × List ((Str × Str) × DlRes) × List Str :=
  let e := end_idx.getD documents.length
  let batch := pySlice documents start_idx e
  match runTasks net writeOk retries dir batch fs with
  | (pairs, fs2) => (totalDownloaded pairs, pairs, fs2)

/-- downloader.py, `download_parallel` (lines 328-380): same slicing and the
same per-task algorithm, returning the pair
`(total_downloaded, failed_downloads)`. -/
def download_parallel (net : Str → Nat → FetchRes) (writeOk : Str → Bool)
    (retries : Nat) (fs : List Str) (documents : List (Str × Str)) (dir : Str)
    (start_idx : Nat) (end_idx : Option Nat) :
    (Nat × List Str) × List ((Str × Str) × DlRes) × List Str :=
  let e := end_idx.getD documents.length
  let batch := pySlice documents start_idx e
  match runTasks net writeOk retries dir batch fs with
  | (pairs, fs2) => ((totalDownloaded pairs, failedDownloads pairs), pairs, fs2)

/-- One row of the extracted document data: a JSON object that may or may not
carry the 'Guid', 'Doc_Ref2' and 'Doc_Type' keys (other keys are irrelevant
to the downloader). -/
structure RawDoc where
  guid : Option Str
  docRef2 : Option Str
  docType : Option Str
deriving DecidableEq

/-- downloader.py, `load_document_cache` (lines 119-148).  The cache file is
modelled as `none` when absent, otherwise its age in seconds
(`time.time() - getmtime`) paired with its content — `none` content meaning
the file is unreadable or fails to parse as JSON (`json.load` raising, which
the `except Exception` handler turns into a cache miss). -/
def load_document_cache (useCache : Bool) (expiry : Nat)
    (file : Option (Nat × Option (List RawDoc))) : Option (List RawDoc) :=
  if !useCache then none
  else
    match file with
    | none => none
    | some (age, content) =>
      if expiry < age then none
      else
        match content with
        | none => none
        | some docs => some docs

/-- downloader.py, `save_document_cache` (lines 150-168): with caching
enabled and a successful write, the file now holds the serialized list with
age 0; a write error is logged and swallowed (the pre-existing file state is
kept in this model).  With caching disabled nothing is written. -/
def save_document_cache (useCache : Bool) (writeOk : Bool)
    (docs : List RawDoc) (file : Option (Nat × Option (List RawDoc))) :
    Option (Nat × Option (List RawDoc)) :=
  if !useCache then file
  else if writeOk then some (0, some docs)
  else file

/-- Let `a` seconds elapse after a write: the file content is unchanged and
its age becomes `a`. -/
def ageFile (a : Nat) (file : Option (Nat × Option (List RawDoc)))
    : Option (Nat × Option (List RawDoc)) :=
  file.map (fun f => (a, f.2))

/-- Python `s.startswith(p)` on lists of characters. -/
def startsWithL : Str → Str → Bool
  | _, [] => true
  | [], _ :: _ => false
  | c :: cs, d :: ds => c == d && startsWithL cs ds

/-- Python `p in s` (substring containment) on lists of characters. -/
def hasSub : Str → Str → Bool
  | [], p => startsWithL [] p
  | c :: t, p => startsWithL (c :: t) p || hasSub t p

/-- downloader.py, `main` lines 438-441: keep a document when it has both the
'Guid' and 'Doc_Ref2' keys and `DOCUMENT_TYPE_FILTER in doc.get('Doc_Type', '')`,
collecting the `(Guid, Doc_Ref2)` pairs in order. -/
def filterDocuments (typeFilter : Str) (docs : List RawDoc) : List (Str × Str) :=
  docs.foldr
    (fun d acc =>
      match d.guid, d.docRef2 with
      | some g, some r =>
        if hasSub (d.docType.getD []) typeFilter then (g, r) :: acc else acc
      | _, _ => acc)
    []

/-- downloader.py, `main` lines 446-451: the effective end index.  The
command line gives `start`, optional `end` and a batch size (`args.batch if
args.batch > 0 else 0`); when the batch size is positive and `end` is unset,
`end = min(start + batch_size, len)`. -/
def mainBatchEnd (batchSize : Nat) (start : Nat) (endIdx : Option Nat)
    (len : Nat) : Option Nat :=
  if 0 < batchSize ∧ endIdx = none then some (min (start + batchSize) len)
  else endIdx

/-- The complete batch-selection pipeline: the end index computed by `main`,
then the orchestrators' `end_idx = len(documents)` default and Python slice
`documents[start_idx:end_idx]`.  No part of the pipeline can fail. -/
def batchSelect {α : Type} (xs : List α) (start : Nat) (endIdx : Option Nat)
    (batchSize : Nat) : List α :=
  pySlice xs start ((mainBatchEnd batchSize start endIdx xs.length).getD xs.length)

/-- Modelled from the spec (section 4.5, Batch Selector), for comparison with
the code's `batchSelect`: the selector "fails (reports an error, does not
silently clamp)" when start exceeds the length, or when start exceeds a given
end; otherwise it clamps end to the length; with end unset and a positive
batch size, end = min(start + batch_size, length); with both unset it
processes the entire sequence. -/
def batchSelectFromSpec {α : Type} (xs : List α) (start : Nat)
    (endIdx : Option Nat) (batchSize : Nat) : Option (List α) :=
  if xs.length < start then none
  else
    match endIdx with
    | some e =>
      if e < start then none else some (pySlice xs start (min e xs.length))
    | none =>
      if 0 < batchSize then some (pySlice xs start (min (start + batchSize) xs.length))
      else some (xs.drop start)

theorem map_id_on {α : Type} (f : α → α) :
    ∀ (l : List α), (∀ x ∈ l, f x = x) → l.map f = l := by
  intro l
  induction l with
  | nil => intro _; rfl
  | cons a t ih =>
    intro h
    simp only [List.map_cons]
    rw [h a (by simp), ih (fun x hx => h x (by simp [hx]))]

theorem sanitize_chars_valid (name : Str) :
    ∀ c ∈ name.map (fun c => if isInvalidChar c then '_' else c),
      isInvalidChar c = false := by
  intro c hc
  rcases List.mem_map.mp hc with ⟨c0, _, rfl⟩
  by_cases h : isInvalidChar c0 = true
  · simp only [h, if_true]
    decide
  · simp only [Bool.not_eq_true] at h
    simp [h]

/-- Claim C1, counterexample: the sanitizer's output does not always match the
claimed regex `[^\\/*?:"<>|]{1,104}\.pdf` anchored at both ends.  The empty
reference yields `.pdf` (an empty stem, while the regex requires at least one
stem character), and a reference already ending in upper-case `.PDF` is kept
as is, so the output does not end in the literal lower-case `.pdf`. -/
theorem c1_counterexample :
    sanitize_filename ("".data) = ".pdf".data ∧
    matchesSpecRegex (sanitize_filename ("".data)) = false ∧
    sanitize_filename ("A.PDF".data) = "A.PDF".data ∧
    matchesSpecRegex (sanitize_filename ("A.PDF".data)) = false := by
  refine ⟨by decide, by decide, by decide, by decide⟩

theorem shape_of_valid (s2 : Str) (hlen2 : s2.length ≤ 100)
    (hvalid2 : ∀ c ∈ s2, isInvalidChar c = false) :
    matchesSanitizedShape (if endsPdfCI s2 then s2 else s2 ++ (".pdf".data)) = true := by
  by_cases hpdf : endsPdfCI s2 = true
  · simp only [hpdf, if_true]
    have hdrop : (s2.map Char.toLower).drop (s2.length - 4) = ['.', 'p', 'd', 'f'] := by
      have := hpdf
      unfold endsPdfCI endsWithL at this
      simpa [List.length_map] using (beq_iff_eq.mp (by simpa using this))
    have hge : 4 ≤ s2.length := by
      by_contra hlt
      push_neg at hlt
      have h4 : (List.drop (s2.length - 4) (s2.map Char.toLower)).length = 4 := by
        rw [hdrop]
        rfl
      simp only [List.length_drop, List.length_map] at h4
      omega
    simp only [matchesSanitizedShape, Bool.and_eq_true, decide_eq_true_eq,
      beq_iff_eq, List.all_eq_true]
    refine ⟨⟨⟨hge, by omega⟩, ?_⟩, ?_⟩
    · rw [List.map_drop, hdrop]
    · intro c hc
      have hv : isInvalidChar c = false :=
        hvalid2 c (List.mem_of_mem_take hc)
      simp [hv]
  · rw [Bool.not_eq_true] at hpdf
    simp only [hpdf, Bool.false_eq_true, if_false]
    have hlenapp : (s2 ++ ['.', 'p', 'd', 'f']).length = s2.length + 4 := by
      simp
    have hsub : (s2 ++ ['.', 'p', 'd', 'f']).length - 4 = s2.length := by omega
    simp only [matchesSanitizedShape, Bool.and_eq_true, decide_eq_true_eq,
      beq_iff_eq, List.all_eq_true]
    refine ⟨⟨⟨by omega, by omega⟩, ?_⟩, ?_⟩
    · rw [hsub, List.drop_left]
      decide
    · rw [hsub, List.take_left]
      intro c hc
      simp [hvalid2 c hc]

/-- Claim C1 (amended): for every input string the sanitizer returns a string
with no invalid character, with at most 100 characters before the 4-character
extension, ending case-insensitively in `.pdf` (the suffix is appended only
when the truncated, character-replaced string does not already end in `.pdf`
case-insensitively); equivalently the output matches
`[^\\/*?:"<>|]{0,100}\.[pP][dD][fF]` anchored at both ends.  The function is
total, and it is the identity on already-sanitized names of length at most
100 that end in `.pdf` case-insensitively. -/
theorem c1_sanitizer_shape :
    (∀ name : Str, matchesSanitizedShape (sanitize_filename name) = true) ∧
    (∀ name : Str, name.length ≤ 100 →
      (∀ c ∈ name, isInvalidChar c = false) →
      endsPdfCI name = true → sanitize_filename name = name) := by
  constructor
  · intro name
    have hvalid : ∀ c ∈ (name.map (fun c => if isInvalidChar c then '_' else c)).take 100,
        isInvalidChar c = false := fun c hc =>
      sanitize_chars_valid name c (List.mem_of_mem_take hc)
    have hlen : ((name.map (fun c => if isInvalidChar c then '_' else c)).take 100).length ≤ 100 :=
      List.length_take_le 100 _
    exact shape_of_valid _ hlen hvalid
  · intro name hlen hvalid hpdf
    have h1 : name.map (fun c => if isInvalidChar c then '_' else c) = name := by
      refine map_id_on _ name ?_
      intro x hx
      simp [hvalid x hx]
    simp only [sanitize_filename, h1, List.take_of_length_le hlen, hpdf, if_true]

/-- Claim C1, witness: concrete instances of `c1_sanitizer_shape`. -/
theorem c1_sanitizer_shape_witness :
    matchesSanitizedShape (sanitize_filename ("Report 12/3".data)) = true ∧
    sanitize_filename ("a.pdf".data) = "a.pdf".data := by
  constructor
  · exact c1_sanitizer_shape.1 ("Report 12/3".data)
  · exact c1_sanitizer_shape.2 ("a.pdf".data) (by decide) (by decide) (by decide)

/-- Claim C2, counterexample: path derivation is not injective on distinct
(id, reference) pairs.  Two tasks with different GUIDs but the same reference
share a path, and even two different references ("a?" and "a_") sanitize to
the same filename, hence the same path. -/
theorem c2_counterexample :
    (("g1".data, "a?".data) : Str × Str) ≠ (("g2".data, "a_".data) : Str × Str) ∧
    targetPath ("d".data) ("a?".data) = targetPath ("d".data) ("a_".data) ∧
    ("a?".data : Str) ≠ ("a_".data : Str) := by
  refine ⟨by decide, by decide, by decide⟩

/-- Claim C2 (amended): the target path depends only on the sanitized
reference; tasks whose references sanitize to different filenames get
distinct paths, but distinct id/reference pairs can collide whenever their
references sanitize to the same filename (in particular whenever the
references are equal and only the ids differ). -/
theorem c2_path_injective_on_sanitized (dir r1 r2 : Str)
    (h : sanitize_filename r1 ≠ sanitize_filename r2) :
    targetPath dir r1 ≠ targetPath dir r2 := by
  intro heq
  apply h
  unfold targetPath pathJoin at heq
  have h2 := List.append_cancel_left heq
  exact (List.cons_eq_cons.mp h2).2

/-- Claim C2, witness. -/
theorem c2_path_injective_on_sanitized_witness :
    sanitize_filename ("a".data) ≠ sanitize_filename ("b".data) ∧
    targetPath ("d".data) ("a".data) ≠ targetPath ("d".data) ("b".data) :=
  ⟨by decide, c2_path_injective_on_sanitized ("d".data) ("a".data) ("b".data) (by decide)⟩

theorem runAttempts_netCalls_le (net : Nat → FetchRes) (w : Bool) :
    ∀ (r a : Nat), (runAttempts net w a r).2.1 ≤ r := by
  intro r
  induction r with
  | zero => intro a; simp [runAttempts]
  | succ r ih =>
    intro a
    simp only [runAttempts]
    split
    · split <;> simp
    · split
      · simp
      · have h := ih (a + 1)
        rcases hr : runAttempts net w (a + 1) r with ⟨o, n, s⟩
        rw [hr] at h
        simp only [hr]
        simpa using Nat.succ_le_succ h

theorem runAttempts_netCalls_pos (net : Nat → FetchRes) (w : Bool) (a r : Nat)
    (hr : 0 < r) : 1 ≤ (runAttempts net w a r).2.1 := by
  rcases r with _ | r
  · omega
  · simp only [runAttempts]
    split
    · split <;> simp
    · split
      · simp
      · rcases hrec : runAttempts net w (a + 1) r with ⟨o, n, s⟩
        simp

theorem range_pow_shift (a m : Nat) :
    (List.range (m + 1)).map (fun i => 2 ^ (a + i)) =
      2 ^ a :: (List.range m).map (fun i => 2 ^ ((a + 1) + i)) := by
  rw [List.range_succ_eq_map, List.map_cons, List.map_map]
  refine congrArg₂ _ (by simp) ?_
  refine List.map_congr_left ?_
  intro i _
  simp only [Function.comp_apply]
  congr 1
  omega

theorem runAttempts_sleeps (net : Nat → FetchRes) (w : Bool) :
    ∀ (r a : Nat),
      (runAttempts net w a r).2.2 =
        (List.range ((runAttempts net w a r).2.1 - 1)).map (fun i => 2 ^ (a + i)) := by
  intro r
  induction r with
  | zero => intro a; simp [runAttempts]
  | succ r ih =>
    intro a
    simp only [runAttempts]
    split
    · split <;> simp
    · split
      · simp
      · rename_i hfail hr0
        have hpos : 1 ≤ (runAttempts net w (a + 1) r).2.1 :=
          runAttempts_netCalls_pos net w (a + 1) r (Nat.pos_of_ne_zero hr0)
        have hs := ih (a + 1)
        rcases hrec : runAttempts net w (a + 1) r with ⟨o, n, s⟩
        rw [hrec] at hs hpos
        simp only at hs hpos
        simp only [hrec]
        rcases n with _ | n
        · omega
        · simp only [Nat.add_sub_cancel] at hs ⊢
          rw [hs, range_pow_shift]

theorem runAttempts_allFail (net : Nat → FetchRes) (w : Bool) :
    ∀ (r a : Nat), (∀ i, i < r → fetchOk (net (a + i)) = false) →
      (runAttempts net w a r).1 = AttemptOut.exhausted ∧
      (runAttempts net w a r).2.1 = r := by
  intro r
  induction r with
  | zero => intro a _; simp [runAttempts]
  | succ r ih =>
    intro a h
    have h0 : fetchOk (net a) = false := by simpa using h 0 (Nat.succ_pos r)
    simp only [runAttempts, h0, Bool.false_eq_true, if_false]
    split
    · rename_i hr0
      simp [hr0]
    · rename_i hr0
      have hrest : ∀ i, i < r → fetchOk (net ((a + 1) + i)) = false := by
        intro i hi
        have := h (i + 1) (by omega)
        simpa [Nat.add_assoc, Nat.add_comm 1 i] using this
      have := ih (a + 1) hrest
      rcases hrec : runAttempts net w (a + 1) r with ⟨o, n, s⟩
      rw [hrec] at this
      simp only [hrec]
      simpa using this

theorem get_page_content_stats (net : Nat → FetchRes) (R : Nat) :
    (get_page_content net R).2 = (runAttempts net true 0 R).2 := by
  unfold get_page_content
  rcases runAttempts net true 0 R with ⟨o, n, s⟩
  cases o <;> rfl

/-- Claim C4, counterexample: a non-2xx HTTP status does not always count as
a failure.  `raise_for_status` raises only for 4xx/5xx, so a fetch whose
every attempt yields status 304 (non-2xx) returns success after a single
attempt with no retry and no backoff sleep, where the claim requires it to be
treated as a failure subject to the retry policy. -/
theorem c4_counterexample :
    get_page_content (fun _ => FetchRes.http 304) RETRY_ATTEMPTS = (true, 1, []) := by
  decide

/-- Claim C4 (amended): both fetch paths make at most `retries` attempts;
the backoff sleeps are exactly `2 ^ attempt` seconds after each failed
attempt that is not the last (so after n attempts the sleeps read
`[2^0, ..., 2^(n-2)]`); a 4xx or 5xx HTTP status (but not every non-2xx
status) counts as a failure subject to the same retry policy; when every
attempt fails the final failure is surfaced to the caller after exactly
`retries` attempts rather than retried further; and a fetch that fails twice
then succeeds on the third attempt returns success after sleeping 1 second
and then 2 seconds.  The same bounds hold for the document fetch inside
`download_document`. -/
theorem c4_retry_policy :
    (∀ (net : Nat → FetchRes) (R : Nat), (get_page_content net R).2.1 ≤ R) ∧
    (∀ (net : Nat → FetchRes) (R : Nat),
      (get_page_content net R).2.2 =
        (List.range ((get_page_content net R).2.1 - 1)).map (fun i => 2 ^ i)) ∧
    (∀ (net : Nat → FetchRes) (R : Nat),
      (∀ i, i < R → fetchOk (net i) = false) →
      (get_page_content net R).1 = false ∧ (get_page_content net R).2.1 = R) ∧
    (∀ s : Nat, 400 ≤ s → s < 600 →
      get_page_content (fun _ => FetchRes.http s) RETRY_ATTEMPTS = (false, 3, [1, 2])) ∧
    (get_page_content (fun i => if i < 2 then FetchRes.netErr else FetchRes.http 200)
      RETRY_ATTEMPTS = (true, 3, [1, 2])) ∧
    (∀ (net : Str → Nat → FetchRes) (w : Str → Bool) (R : Nat) (fs : List Str)
      (g r dir : Str) (d : Bool),
      ((download_document net w R fs g r dir d).1).netCalls ≤ R) ∧
    (∀ (net : Str → Nat → FetchRes) (w : Str → Bool) (fs : List Str) (g r dir : Str),
      targetPath dir r ∉ fs →
      (∀ i, i < RETRY_ATTEMPTS → fetchOk (net g i) = false) →
      (download_document net w RETRY_ATTEMPTS fs g r dir).1 =
        ⟨false, r, RETRY_ATTEMPTS, [1, 2], true, false⟩) := by
  refine ⟨?_, ?_, ?_, ?_, ?_, ?_, ?_⟩
  · intro net R
    rw [get_page_content_stats]
    exact runAttempts_netCalls_le net true R 0
  · intro net R
    rw [get_page_content_stats]
    simpa using runAttempts_sleeps net true R 0
  · intro net R h
    have hall := runAttempts_allFail net true R 0 (fun i hi => by simpa using h i hi)
    unfold get_page_content
    rcases hrec : runAttempts net true 0 R with ⟨o, n, s⟩
    rw [hrec] at hall
    obtain ⟨ho, hn⟩ := hall
    simp only at ho hn
    subst ho
    exact ⟨rfl, hn⟩
  · intro s h1 h2
    have hf : fetchOk (FetchRes.http s) = false := by
      simp [fetchOk, h1, h2]
    have hall := runAttempts_allFail (fun _ => FetchRes.http s) true 3 0 (fun i _ => hf)
    have hsl := runAttempts_sleeps (fun _ => FetchRes.http s) true 3 0
    rcases hrec : runAttempts (fun _ => FetchRes.http s) true 0 3 with ⟨o, n, sl⟩
    rw [hrec] at hall hsl
    obtain ⟨ho, hn⟩ := hall
    simp only at ho hn hsl
    subst ho
    subst hn
    have hsl2 : sl = [1, 2] := by
      rw [hsl]
      decide
    subst hsl2
    show get_page_content (fun _ => FetchRes.http s) 3 = (false, 3, [1, 2])
    unfold get_page_content
    rw [hrec]
  · decide
  · intro net w R fs g r dir d
    simp only [download_document]
    split
    · simp
    · have hb := runAttempts_netCalls_le (net g) (w g) R 0
      rcases hrec : runAttempts (net g) (w g) 0 R with ⟨o, n, s⟩
      rw [hrec] at hb
      simp only at hb
      cases o <;> simpa using hb
  · intro net w fs g r dir htp hfail
    simp only [targetPath] at htp
    have hall := runAttempts_allFail (net g) (w g) 3 0 (fun i hi => by
      simpa using hfail i (by simpa [RETRY_ATTEMPTS] using hi))
    have hsl := runAttempts_sleeps (net g) (w g) 3 0
    rcases hrec : runAttempts (net g) (w g) 0 3 with ⟨o, n, sl⟩
    rw [hrec] at hall hsl
    obtain ⟨ho, hn⟩ := hall
    simp only at ho hn hsl
    subst ho
    subst hn
    have hsl2 : sl = [1, 2] := by
      rw [hsl]
      decide
    subst hsl2
    simp only [download_document, RETRY_ATTEMPTS]
    rw [if_neg htp, hrec]

/-- Claim C4, witness: concrete instances of `c4_retry_policy`. -/
theorem c4_retry_policy_witness :
    (get_page_content (fun _ => FetchRes.netErr) 3).2.1 ≤ 3 ∧
    get_page_content (fun _ => FetchRes.http 500) RETRY_ATTEMPTS = (false, 3, [1, 2]) := by
  constructor
  · exact c4_retry_policy.1 (fun _ => FetchRes.netErr) 3
  · exact c4_retry_policy.2.2.2.1 500 (by decide) (by decide)

theorem download_document_skip (net : Str → Nat → FetchRes) (w : Str → Bool)
    (R : Nat) (fs : List Str) (g r dir : Str) (d : Bool)
    (h : targetPath dir r ∈ fs) :
    download_document net w R fs g r dir d =
      (⟨true, sanitize_filename r, 0, [], false, true⟩, fs) := by
  simp only [targetPath] at h
  simp only [download_document, if_pos h]

theorem download_document_fs_mono (net : Str → Nat → FetchRes) (w : Str → Bool)
    (R : Nat) (fs : List Str) (g r dir : Str) (x : Str) (hx : x ∈ fs) :
    x ∈ (download_document net w R fs g r dir).2 := by
  simp only [download_document]
  split
  · exact hx
  · rcases runAttempts (net g) (w g) 0 R with ⟨o, n, s⟩
    cases o
    · exact List.mem_cons_of_mem _ hx
    · exact hx
    · exact hx

theorem download_document_path_mem (net : Str → Nat → FetchRes) (w : Str → Bool)
    (R : Nat) (fs : List Str) (g r dir : Str)
    (h : ((download_document net w R fs g r dir).1).success = true) :
    targetPath dir r ∈ (download_document net w R fs g r dir).2 := by
  simp only [targetPath]
  by_cases hmem : pathJoin dir (sanitize_filename r) ∈ fs
  · simp only [download_document, if_pos hmem]
    exact hmem
  · simp only [download_document, if_neg hmem] at h ⊢
    rcases hrec : runAttempts (net g) (w g) 0 R with ⟨o, n, s⟩
    rw [hrec] at h
    cases o
    · simp
    · exact Bool.noConfusion h
    · exact Bool.noConfusion h

theorem runTasks_fs_mono (net : Str → Nat → FetchRes) (w : Str → Bool)
    (R : Nat) (dir : Str) :
    ∀ (tasks : List (Str × Str)) (fs : List Str) (x : Str), x ∈ fs →
      x ∈ (runTasks net w R dir tasks fs).2 := by
  intro tasks
  induction tasks with
  | nil => intro fs x hx; simpa [runTasks] using hx
  | cons t rest ih =>
    intro fs x hx
    rcases t with ⟨g, r⟩
    simp only [runTasks]
    rcases hdd : download_document net w R fs g r dir with ⟨res, fs2⟩
    have hx2 : x ∈ fs2 := by
      have hm := download_document_fs_mono net w R fs g r dir x hx
      rw [hdd] at hm
      exact hm
    rcases hrt : runTasks net w R dir rest fs2 with ⟨pairs, fs3⟩
    have hm2 := ih fs2 x hx2
    rw [hrt] at hm2
    simpa using hm2

theorem runTasks_success_paths (net : Str → Nat → FetchRes) (w : Str → Bool)
    (R : Nat) (dir : Str) :
    ∀ (tasks : List (Str × Str)) (fs : List Str),
      ∀ p ∈ (runTasks net w R dir tasks fs).1, p.2.success = true →
        targetPath dir p.1.2 ∈ (runTasks net w R dir tasks fs).2 := by
  intro tasks
  induction tasks with
  | nil => intro fs p hp; simp [runTasks] at hp
  | cons t rest ih =>
    intro fs p hp hs
    rcases t with ⟨g, r⟩
    simp only [runTasks] at hp ⊢
    rcases hdd : download_document net w R fs g r dir with ⟨res, fs2⟩
    rcases hrt : runTasks net w R dir rest fs2 with ⟨pairs, fs3⟩
    simp only [hdd, hrt] at hp ⊢
    rcases List.mem_cons.mp hp with hp1 | hp2
    · subst hp1
      have hpm := download_document_path_mem net w R fs g r dir (by rw [hdd]; exact hs)
      rw [hdd] at hpm
      have := runTasks_fs_mono net w R dir rest fs2 _ hpm
      rw [hrt] at this
      simpa using this
    · have hrec := ih fs2 p
      rw [hrt] at hrec
      have := hrec (by simpa using hp2) hs
      simpa using this

theorem runTasks_fst (net : Str → Nat → FetchRes) (w : Str → Bool)
    (R : Nat) (dir : Str) :
    ∀ (tasks : List (Str × Str)) (fs : List Str),
      ((runTasks net w R dir tasks fs).1).map Prod.fst = tasks := by
  intro tasks
  induction tasks with
  | nil => intro fs; simp [runTasks]
  | cons t rest ih =>
    intro fs
    rcases t with ⟨g, r⟩
    simp only [runTasks]
    rcases hdd : download_document net w R fs g r dir with ⟨res, fs2⟩
    rcases hrt : runTasks net w R dir rest fs2 with ⟨pairs, fs3⟩
    have := ih fs2
    rw [hrt] at this
    simpa using this

theorem runTasks_skip_all (net : Str → Nat → FetchRes) (w : Str → Bool)
    (R : Nat) (dir : Str) :
    ∀ (tasks : List (Str × Str)) (fs : List Str),
      (∀ t ∈ tasks, targetPath dir t.2 ∈ fs) →
      runTasks net w R dir tasks fs =
        (tasks.map (fun t => (t, ⟨true, sanitize_filename t.2, 0, [], false, true⟩)), fs) := by
  intro tasks
  induction tasks with
  | nil => intro fs _; simp [runTasks]
  | cons t rest ih =>
    intro fs h
    rcases t with ⟨g, r⟩
    simp only [runTasks]
    rw [download_document_skip net w R fs g r dir true (h (g, r) (by simp))]
    rw [ih fs (fun t ht => h t (by simp [ht]))]
    rfl

theorem length_filter_add_not {α : Type} (p : α → Bool) :
    ∀ (l : List α), (l.filter p).length + (l.filter (fun x => !p x)).length = l.length := by
  intro l
  induction l with
  | nil => simp
  | cons a t ih =>
    by_cases h : p a = true
    · simp [List.filter_cons, h, ← ih]
      omega
    · rw [Bool.not_eq_true] at h
      simp [List.filter_cons, h, ← ih]
      omega

theorem all_of_filter_length {α : Type} (p : α → Bool) :
    ∀ (l : List α), (l.filter p).length = l.length → ∀ x ∈ l, p x = true := by
  intro l
  induction l with
  | nil => intro _ x hx; simp at hx
  | cons a t ih =>
    intro h x hx
    by_cases hpa : p a = true
    · rcases List.mem_cons.mp hx with h1 | h2
      · subst h1; exact hpa
      · refine ih ?_ x h2
        simpa [List.filter_cons, hpa] using h
    · exfalso
      rw [Bool.not_eq_true] at hpa
      have hle := List.length_filter_le p t
      simp [List.filter_cons, hpa, List.length_cons] at h
      omega

theorem pySlice_full {α : Type} (xs : List α) : pySlice xs 0 xs.length = xs := by
  simp [pySlice]

theorem download_sequential_full (net : Str → Nat → FetchRes) (w : Str → Bool)
    (R : Nat) (fs : List Str) (docs : List (Str × Str)) (dir : Str) :
    download_sequential net w R fs docs dir 0 none =
      (totalDownloaded (runTasks net w R dir docs fs).1,
       (runTasks net w R dir docs fs).1, (runTasks net w R dir docs fs).2) := by
  simp only [download_sequential, Option.getD_none, pySlice_full]

theorem download_parallel_full (net : Str → Nat → FetchRes) (w : Str → Bool)
    (R : Nat) (fs : List Str) (docs : List (Str × Str)) (dir : Str) :
    download_parallel net w R fs docs dir 0 none =
      ((totalDownloaded (runTasks net w R dir docs fs).1,
        failedDownloads (runTasks net w R dir docs fs).1),
       (runTasks net w R dir docs fs).1, (runTasks net w R dir docs fs).2) := by
  simp only [download_parallel, Option.getD_none, pySlice_full]

theorem totalNetCalls_skip (tasks : List (Str × Str)) :
    totalNetCalls (tasks.map (fun t =>
      (t, (⟨true, sanitize_filename t.2, 0, [], false, true⟩ : DlRes)))) = 0 := by
  induction tasks with
  | nil => rfl
  | cons t rest ih => simpa [totalNetCalls] using ih

theorem totalDownloaded_skip (tasks : List (Str × Str)) :
    totalDownloaded (tasks.map (fun t =>
      (t, (⟨true, sanitize_filename t.2, 0, [], false, true⟩ : DlRes)))) = tasks.length := by
  induction tasks with
  | nil => rfl
  | cons t rest ih => simpa [totalDownloaded, List.filter_cons] using ih

theorem runTasks_all_success (net : Str → Nat → FetchRes) (w : Str → Bool)
    (R : Nat) (dir : Str) (docs : List (Str × Str)) (fs : List Str)
    (h1 : totalDownloaded (runTasks net w R dir docs fs).1 = docs.length) :
    ∀ p ∈ (runTasks net w R dir docs fs).1, p.2.success = true := by
  have hlenpairs : ((runTasks net w R dir docs fs).1).length = docs.length := by
    have hfst := runTasks_fst net w R dir docs fs
    calc ((runTasks net w R dir docs fs).1).length
        = (((runTasks net w R dir docs fs).1).map Prod.fst).length := by simp
      _ = docs.length := by rw [hfst]
  refine all_of_filter_length _ _ ?_
  unfold totalDownloaded at h1
  omega

/-- Claim C3, counterexample: the second-run half of the claim fails when the
first run had failures.  With a single task whose fetch always fails, the
second run over the same task list performs 3 network calls, not zero; and
with two tasks that share a target path (same reference), the second run can
even report a larger success count than the first (2 versus 1), because the
first task, which failed in run one, is skipped as already-downloaded in run
two thanks to the second task's file. -/
theorem c3_counterexample :
    totalNetCalls (download_sequential (fun _ _ => FetchRes.netErr) (fun _ => true)
        RETRY_ATTEMPTS
        (download_sequential (fun _ _ => FetchRes.netErr) (fun _ => true)
          RETRY_ATTEMPTS [] [("g".data, "r".data)] ("d".data) 0 none).2.2
        [("g".data, "r".data)] ("d".data) 0 none).2.1 = 3 ∧
    (download_sequential (fun g _ => if g == "gb".data then FetchRes.netErr else FetchRes.http 200)
        (fun _ => true) RETRY_ATTEMPTS []
        [("gb".data, "x".data), ("gg".data, "x".data)] ("d".data) 0 none).1 = 1 ∧
    (download_sequential (fun g _ => if g == "gb".data then FetchRes.netErr else FetchRes.http 200)
        (fun _ => true) RETRY_ATTEMPTS
        (download_sequential (fun g _ => if g == "gb".data then FetchRes.netErr else FetchRes.http 200)
          (fun _ => true) RETRY_ATTEMPTS []
          [("gb".data, "x".data), ("gg".data, "x".data)] ("d".data) 0 none).2.2
        [("gb".data, "x".data), ("gg".data, "x".data)] ("d".data) 0 none).1 = 2 := by
  refine ⟨by decide, by decide, by decide⟩

/-- Claim C3 (amended): a task whose computed target path already exists at
the start of the per-task algorithm yields a success outcome carrying the
sanitized filename, with zero network calls, no backoff sleeps and no
politeness delay, leaving the filesystem unchanged — in either execution
mode, since both modes run the same per-task function.  Consequently, if the
first run succeeds on every task, running the orchestrator (sequential or
parallel) a second time over the same task list and destination directory
performs zero network calls and reports the same success count.  (Without
the all-success hypothesis the consequence fails: failed tasks are retried
over the network on the second run, see the counterexample.) -/
theorem c3_skip_and_resume :
    (∀ (net : Str → Nat → FetchRes) (w : Str → Bool) (R : Nat) (fs : List Str)
      (g r dir : Str) (d : Bool), targetPath dir r ∈ fs →
      download_document net w R fs g r dir d =
        (⟨true, sanitize_filename r, 0, [], false, true⟩, fs)) ∧
    (∀ (net : Str → Nat → FetchRes) (w : Str → Bool) (R : Nat) (fs : List Str)
      (docs : List (Str × Str)) (dir : Str),
      (download_sequential net w R fs docs dir 0 none).1 = docs.length →
      totalNetCalls (download_sequential net w R
          (download_sequential net w R fs docs dir 0 none).2.2 docs dir 0 none).2.1 = 0 ∧
      (download_sequential net w R
          (download_sequential net w R fs docs dir 0 none).2.2 docs dir 0 none).1 =
        (download_sequential net w R fs docs dir 0 none).1) ∧
    (∀ (net : Str → Nat → FetchRes) (w : Str → Bool) (R : Nat) (fs : List Str)
      (docs : List (Str × Str)) (dir : Str),
      (download_parallel net w R fs docs dir 0 none).1.1 = docs.length →
      totalNetCalls (download_parallel net w R
          (download_parallel net w R fs docs dir 0 none).2.2 docs dir 0 none).2.1 = 0 ∧
      (download_parallel net w R
          (download_parallel net w R fs docs dir 0 none).2.2 docs dir 0 none).1.1 =
        (download_parallel net w R fs docs dir 0 none).1.1) := by
  refine ⟨?_, ?_, ?_⟩
  · intro net w R fs g r dir d h
    exact download_document_skip net w R fs g r dir d h
  · intro net w R fs docs dir h1
    rw [download_sequential_full] at h1
    simp only at h1
    have hall := runTasks_all_success net w R dir docs fs h1
    have hpaths : ∀ t ∈ docs, targetPath dir t.2 ∈ (runTasks net w R dir docs fs).2 := by
      intro t ht
      have hmem : t ∈ ((runTasks net w R dir docs fs).1).map Prod.fst := by
        rw [runTasks_fst]
        exact ht
      rcases List.mem_map.mp hmem with ⟨p, hp, rfl⟩
      exact runTasks_success_paths net w R dir docs fs p hp (hall p hp)
    have hskip := runTasks_skip_all net w R dir docs (runTasks net w R dir docs fs).2 hpaths
    simp only [download_sequential_full, hskip]
    exact ⟨totalNetCalls_skip docs, by rw [totalDownloaded_skip docs, h1]⟩
  · intro net w R fs docs dir h1
    rw [download_parallel_full] at h1
    simp only at h1
    have hall := runTasks_all_success net w R dir docs fs h1
    have hpaths : ∀ t ∈ docs, targetPath dir t.2 ∈ (runTasks net w R dir docs fs).2 := by
      intro t ht
      have hmem : t ∈ ((runTasks net w R dir docs fs).1).map Prod.fst := by
        rw [runTasks_fst]
        exact ht
      rcases List.mem_map.mp hmem with ⟨p, hp, rfl⟩
      exact runTasks_success_paths net w R dir docs fs p hp (hall p hp)
    have hskip := runTasks_skip_all net w R dir docs (runTasks net w R dir docs fs).2 hpaths
    simp only [download_parallel_full, hskip]
    exact ⟨totalNetCalls_skip docs, by rw [totalDownloaded_skip docs, h1]⟩

/-- Claim C3, witness: concrete instances of `c3_skip_and_resume`. -/
theorem c3_skip_and_resume_witness :
    download_document (fun _ _ => FetchRes.http 200) (fun _ => true) RETRY_ATTEMPTS
        [targetPath ("d".data) ("r".data)] ("g".data) ("r".data) ("d".data) true =
      (⟨true, sanitize_filename ("r".data), 0, [], false, true⟩,
       [targetPath ("d".data) ("r".data)]) ∧
    totalNetCalls (download_sequential (fun _ _ => FetchRes.http 200) (fun _ => true)
        RETRY_ATTEMPTS
        (download_sequential (fun _ _ => FetchRes.http 200) (fun _ => true)
          RETRY_ATTEMPTS [] [("g".data, "r".data)] ("d".data) 0 none).2.2
        [("g".data, "r".data)] ("d".data) 0 none).2.1 = 0 := by
  constructor
  · exact c3_skip_and_resume.1 (fun _ _ => FetchRes.http 200) (fun _ => true)
      RETRY_ATTEMPTS [targetPath ("d".data) ("r".data)] ("g".data) ("r".data)
      ("d".data) true (by simp)
  · exact (c3_skip_and_resume.2.1 (fun _ _ => FetchRes.http 200) (fun _ => true)
      RETRY_ATTEMPTS [] [("g".data, "r".data)] ("d".data) (by decide)).1

theorem download_document_preDelay (net : Str → Nat → FetchRes) (w : Str → Bool)
    (R : Nat) (fs : List Str) (g r dir : Str) :
    ((download_document net w R fs g r dir).1).preDelay =
      !((download_document net w R fs g r dir).1).skipped := by
  simp only [download_document]
  split
  · rfl
  · rcases hrec : runAttempts (net g) (w g) 0 R with ⟨o, n, s⟩
    cases o <;> rfl

theorem runTasks_preDelay (net : Str → Nat → FetchRes) (w : Str → Bool)
    (R : Nat) (dir : Str) :
    ∀ (tasks : List (Str × Str)) (fs : List Str),
      ∀ p ∈ (runTasks net w R dir tasks fs).1, p.2.preDelay = !p.2.skipped := by
  intro tasks
  induction tasks with
  | nil => intro fs p hp; simp [runTasks] at hp
  | cons t rest ih =>
    intro fs p hp
    rcases t with ⟨g, r⟩
    simp only [runTasks] at hp
    rcases hdd : download_document net w R fs g r dir with ⟨res, fs2⟩
    rcases hrt : runTasks net w R dir rest fs2 with ⟨pairs, fs3⟩
    simp only [hdd, hrt] at hp
    rcases List.mem_cons.mp hp with hp1 | hp2
    · subst hp1
      have hpre := download_document_preDelay net w R fs g r dir
      rw [hdd] at hpre
      exact hpre
    · have hrec2 := ih fs2 p
      rw [hrt] at hrec2
      exact hrec2 hp2

theorem download_parallel_pairs (net : Str → Nat → FetchRes) (w : Str → Bool)
    (R : Nat) (fs : List Str) (docs : List (Str × Str)) (dir : Str)
    (s : Nat) (e : Option Nat) :
    (download_parallel net w R fs docs dir s e).2.1 =
      (runTasks net w R dir (pySlice docs s (e.getD docs.length)) fs).1 := by
  simp only [download_parallel]

/-- Claim C6, counterexample: in parallel mode the pre-fetch politeness delay
is not skipped.  `download_parallel` binds only the URL base and directory in
its `partial`, so `add_delay` keeps its default `True`: a single submitted
task whose file does not yet exist sleeps the jittered REQUEST_DELAY before
its fetch (its outcome records `preDelay = true`). -/
theorem c6_counterexample :
    (download_parallel (fun _ _ => FetchRes.http 200) (fun _ => true) RETRY_ATTEMPTS []
        [("g".data, "r".data)] ("d".data) 0 none).2.1 =
      [(("g".data, "r".data),
        ⟨true, sanitize_filename ("r".data), 1, [], true, false⟩)] := by
  decide

/-- Claim C6 (amended): in parallel mode `add_delay` is left at its Python
default `True`, so every task submitted to the pool performs the jittered
pre-fetch politeness delay unless (and only unless) it is skipped because its
target file already exists. -/
theorem c6_parallel_delay (net : Str → Nat → FetchRes) (w : Str → Bool)
    (R : Nat) (fs : List Str) (docs : List (Str × Str)) (dir : Str)
    (s : Nat) (e : Option Nat) :
    ∀ p ∈ (download_parallel net w R fs docs dir s e).2.1,
      p.2.preDelay = !p.2.skipped := by
  intro p hp
  rw [download_parallel_pairs] at hp
  exact runTasks_preDelay net w R dir _ fs p hp

/-- Claim C6, witness: a concrete instance of `c6_parallel_delay`. -/
theorem c6_parallel_delay_witness :
    ((("g".data, "r".data),
        (⟨true, sanitize_filename ("r".data), 1, [], true, false⟩ : DlRes)) ∈
      (download_parallel (fun _ _ => FetchRes.http 200) (fun _ => true) RETRY_ATTEMPTS []
        [("g".data, "r".data)] ("d".data) 0 none).2.1) ∧
    ((⟨true, sanitize_filename ("r".data), 1, [], true, false⟩ : DlRes).preDelay =
      !(⟨true, sanitize_filename ("r".data), 1, [], true, false⟩ : DlRes).skipped) := by
  refine ⟨by decide, ?_⟩
  exact c6_parallel_delay (fun _ _ => FetchRes.http 200) (fun _ => true) RETRY_ATTEMPTS []
    [("g".data, "r".data)] ("d".data) 0 none
    (("g".data, "r".data), (⟨true, sanitize_filename ("r".data), 1, [], true, false⟩ : DlRes))
    (by decide)

theorem pySlice_start_oob {α : Type} (xs : List α) (s E : Nat)
    (h : xs.length < s) : pySlice xs s E = [] := by
  unfold pySlice
  rw [List.drop_eq_nil_of_le (by omega)]
  simp

theorem pySlice_clamp {α : Type} (xs : List α) (s e : Nat) :
    pySlice xs s (min e xs.length) = pySlice xs s e := by
  unfold pySlice
  rw [List.take_eq_take]
  simp [List.length_drop]
  omega

/-- Claim C7, counterexample: the code never reports an error.  With a
100-element sequence and start = 200 (start exceeding the length) the
spec-modelled selector fails, but the code's pipeline silently yields the
empty selection via Python slice clamping. -/
theorem c7_counterexample :
    batchSelectFromSpec (List.range 100) 200 none 0 = none ∧
    batchSelect (List.range 100) 200 none 0 = [] := by
  refine ⟨by decide, by decide⟩

/-- Claim C7 (amended): when end is unset and the batch size is positive the
selector uses end = min(start + batch_size, length); with start, end and
batch size all unset/zero it processes the entire sequence; a given end is
clamped to the length; and with a 100-element sequence, start = 20 and batch
size 30 it selects exactly indices 20 to 49.  However the selector never
reports an error: when start exceeds the length (for any end and batch
size) it silently yields the empty selection instead. -/
theorem c7_batch_select :
    (∀ (α : Type) (xs : List α) (s b : Nat), 0 < b →
      batchSelect xs s none b = pySlice xs s (min (s + b) xs.length)) ∧
    (∀ (α : Type) (xs : List α), batchSelect xs 0 none 0 = xs) ∧
    (∀ (α : Type) (xs : List α) (s : Nat) (e : Option Nat) (b : Nat),
      xs.length < s → batchSelect xs s e b = []) ∧
    (∀ (α : Type) (xs : List α) (s e b : Nat),
      batchSelect xs s (some e) b = pySlice xs s (min e xs.length)) ∧
    batchSelect (List.range 100) 20 none 30 = List.range' 20 30 := by
  refine ⟨?_, ?_, ?_, ?_, by decide⟩
  · intro α xs s b hb
    simp [batchSelect, mainBatchEnd, hb]
  · intro α xs
    simp [batchSelect, mainBatchEnd, pySlice_full]
  · intro α xs s e b h
    unfold batchSelect
    exact pySlice_start_oob xs s _ h
  · intro α xs s e b
    have hend : mainBatchEnd b s (some e) xs.length = some e := by
      simp [mainBatchEnd]
    rw [batchSelect, hend]
    simp only [Option.getD_some]
    exact (pySlice_clamp xs s e).symm

/-- Claim C7, witness: concrete instances of `c7_batch_select`. -/
theorem c7_batch_select_witness :
    (0 < 30 ∧ batchSelect (List.range 5) 1 none 30 =
      pySlice (List.range 5) 1 (min (1 + 30) (List.range 5).length)) ∧
    ((List.range 5).length < 7 ∧ batchSelect (List.range 5) 7 none 0 = []) := by
  refine ⟨⟨by decide, ?_⟩, ⟨by decide, ?_⟩⟩
  · exact c7_batch_select.1 Nat (List.range 5) 1 30 (by decide)
  · exact c7_batch_select.2.2.1 Nat (List.range 5) 7 none 0 (by decide)

theorem runTasks_res_prop (net : Str → Nat → FetchRes) (w : Str → Bool)
    (R : Nat) (dir : Str) (P : (Str × Str) → DlRes → Prop)
    (hP : ∀ (fs : List Str) (g r : Str), P (g, r) ((download_document net w R fs g r dir).1)) :
    ∀ (tasks : List (Str × Str)) (fs : List Str),
      ∀ p ∈ (runTasks net w R dir tasks fs).1, P p.1 p.2 := by
  intro tasks
  induction tasks with
  | nil => intro fs p hp; simp [runTasks] at hp
  | cons t rest ih =>
    intro fs p hp
    rcases t with ⟨g, r⟩
    simp only [runTasks] at hp
    rcases hdd : download_document net w R fs g r dir with ⟨res, fs2⟩
    rcases hrt : runTasks net w R dir rest fs2 with ⟨pairs, fs3⟩
    simp only [hdd, hrt] at hp
    rcases List.mem_cons.mp hp with hp1 | hp2
    · subst hp1
      have hp0 := hP fs g r
      rw [hdd] at hp0
      exact hp0
    · have hrec2 := ih fs2 p
      rw [hrt] at hrec2
      exact hrec2 hp2

theorem download_document_fail_name (net : Str → Nat → FetchRes) (w : Str → Bool)
    (R : Nat) (fs : List Str) (g r dir : Str)
    (h : ((download_document net w R fs g r dir).1).success = false) :
    ((download_document net w R fs g r dir).1).name = r := by
  by_cases hmem : pathJoin dir (sanitize_filename r) ∈ fs
  · simp only [download_document, if_pos hmem] at h
    exact Bool.noConfusion h
  · simp only [download_document, if_neg hmem] at h ⊢
    rcases hrec : runAttempts (net g) (w g) 0 R with ⟨o, n, s⟩
    rw [hrec] at h
    cases o
    · exact Bool.noConfusion h
    · rfl
    · rfl

theorem runAttempts_no_success_of_writeFail (net : Nat → FetchRes) :
    ∀ (r a : Nat), (runAttempts net false a r).1 ≠ AttemptOut.success := by
  intro r
  induction r with
  | zero => intro a; simp [runAttempts]
  | succ r ih =>
    intro a
    simp only [runAttempts]
    split
    · simp
    · split
      · simp
      · rcases hrec : runAttempts net false (a + 1) r with ⟨o, n, s⟩
        have := ih (a + 1)
        rw [hrec] at this
        simpa using this

theorem download_document_write_failure (net : Str → Nat → FetchRes) (w : Str → Bool)
    (R : Nat) (fs : List Str) (g r dir : Str)
    (hmem : targetPath dir r ∉ fs) (hw : w g = false) :
    ((download_document net w R fs g r dir).1).success = false ∧
    ((download_document net w R fs g r dir).1).name = r := by
  simp only [targetPath] at hmem
  simp only [download_document, if_neg hmem]
  rcases hrec : runAttempts (net g) (w g) 0 R with ⟨o, n, s⟩
  have hno := runAttempts_no_success_of_writeFail (net g) R 0
  rw [hw] at hrec
  rw [hrec] at hno
  cases o
  · exact absurd rfl hno
  · exact ⟨rfl, rfl⟩
  · exact ⟨rfl, rfl⟩

theorem download_parallel_eq (net : Str → Nat → FetchRes) (w : Str → Bool)
    (R : Nat) (fs : List Str) (docs : List (Str × Str)) (dir : Str)
    (s : Nat) (e : Option Nat) :
    download_parallel net w R fs docs dir s e =
      ((totalDownloaded (runTasks net w R dir (pySlice docs s (e.getD docs.length)) fs).1,
        failedDownloads (runTasks net w R dir (pySlice docs s (e.getD docs.length)) fs).1),
       (runTasks net w R dir (pySlice docs s (e.getD docs.length)) fs).1,
       (runTasks net w R dir (pySlice docs s (e.getD docs.length)) fs).2) := by
  simp only [download_parallel]

theorem download_sequential_eq (net : Str → Nat → FetchRes) (w : Str → Bool)
    (R : Nat) (fs : List Str) (docs : List (Str × Str)) (dir : Str)
    (s : Nat) (e : Option Nat) :
    download_sequential net w R fs docs dir s e =
      (totalDownloaded (runTasks net w R dir (pySlice docs s (e.getD docs.length)) fs).1,
       (runTasks net w R dir (pySlice docs s (e.getD docs.length)) fs).1,
       (runTasks net w R dir (pySlice docs s (e.getD docs.length)) fs).2) := by
  simp only [download_sequential]

/-- Claim C8: the parallel orchestrator produces exactly one outcome per
submitted task (the outcome list projects back onto the batch, in order) and
never aborts the batch: the reported success count plus the number of failed
references equals the number of tasks; every failed outcome is identified by
the task's original reference string; a task whose every network attempt
fails (an exception surviving all retries) becomes a failure outcome named by
its reference, as does a task whose write to disk fails — in each case the
other tasks' outcomes are still collected. -/
theorem c8_failure_isolation :
    (∀ (net : Str → Nat → FetchRes) (w : Str → Bool) (R : Nat) (fs : List Str)
      (docs : List (Str × Str)) (dir : Str) (s : Nat) (e : Option Nat),
      ((download_parallel net w R fs docs dir s e).2.1).map Prod.fst =
        pySlice docs s (e.getD docs.length)) ∧
    (∀ (net : Str → Nat → FetchRes) (w : Str → Bool) (R : Nat) (fs : List Str)
      (docs : List (Str × Str)) (dir : Str) (s : Nat) (e : Option Nat),
      (download_parallel net w R fs docs dir s e).1.1 +
        ((download_parallel net w R fs docs dir s e).1.2).length =
        (pySlice docs s (e.getD docs.length)).length) ∧
    (∀ (net : Str → Nat → FetchRes) (w : Str → Bool) (R : Nat) (fs : List Str)
      (docs : List (Str × Str)) (dir : Str) (s : Nat) (e : Option Nat),
      ∀ p ∈ (download_parallel net w R fs docs dir s e).2.1,
        p.2.success = false → p.2.name = p.1.2) ∧
    (∀ (net : Str → Nat → FetchRes) (w : Str → Bool) (R : Nat) (fs : List Str)
      (g r dir : Str), targetPath dir r ∉ fs →
      (∀ i, i < R → fetchOk (net g i) = false) →
      ((download_document net w R fs g r dir).1).success = false ∧
      ((download_document net w R fs g r dir).1).name = r) ∧
    (∀ (net : Str → Nat → FetchRes) (w : Str → Bool) (R : Nat) (fs : List Str)
      (g r dir : Str), targetPath dir r ∉ fs → w g = false →
      ((download_document net w R fs g r dir).1).success = false ∧
      ((download_document net w R fs g r dir).1).name = r) := by
  refine ⟨?_, ?_, ?_, ?_, ?_⟩
  · intro net w R fs docs dir s e
    rw [download_parallel_eq]
    exact runTasks_fst net w R dir _ fs
  · intro net w R fs docs dir s e
    rw [download_parallel_eq]
    simp only [totalDownloaded, failedDownloads, List.length_map]
    have hpart := length_filter_add_not (fun p => p.2.success)
      (runTasks net w R dir (pySlice docs s (e.getD docs.length)) fs).1
    have hlen : ((runTasks net w R dir (pySlice docs s (e.getD docs.length)) fs).1).length =
        (pySlice docs s (e.getD docs.length)).length := by
      have hfst := runTasks_fst net w R dir (pySlice docs s (e.getD docs.length)) fs
      calc ((runTasks net w R dir (pySlice docs s (e.getD docs.length)) fs).1).length
          = (((runTasks net w R dir (pySlice docs s (e.getD docs.length)) fs).1).map
              Prod.fst).length := by simp
        _ = (pySlice docs s (e.getD docs.length)).length := by rw [hfst]
    omega
  · intro net w R fs docs dir s e p hp hfail
    rw [download_parallel_pairs] at hp
    refine runTasks_res_prop net w R dir
      (fun t res => res.success = false → res.name = t.2)
      (fun fs2 g r => download_document_fail_name net w R fs2 g r dir) _ fs p hp hfail
  · intro net w R fs g r dir hmem hfail
    have hall := runAttempts_allFail (net g) (w g) R 0 (fun i hi => by simpa using hfail i hi)
    simp only [targetPath] at hmem
    simp only [download_document, if_neg hmem]
    rcases hrec : runAttempts (net g) (w g) 0 R with ⟨o, n, s2⟩
    rw [hrec] at hall
    obtain ⟨ho, _⟩ := hall
    simp only at ho
    subst ho
    exact ⟨rfl, rfl⟩
  · intro net w R fs g r dir hmem hw
    exact download_document_write_failure net w R fs g r dir hmem hw

/-- Claim C8, witness: a batch of two tasks, one with an always-failing fetch,
still yields one outcome per task, a success count of 1 plus one failed
reference, and the failed outcome names the original reference. -/
theorem c8_failure_isolation_witness :
    ((download_parallel (fun g _ => if g == "gb".data then FetchRes.netErr else FetchRes.http 200)
        (fun _ => true) RETRY_ATTEMPTS []
        [("gb".data, "x".data), ("gg".data, "y".data)] ("d".data) 0 none).1.1 +
      ((download_parallel (fun g _ => if g == "gb".data then FetchRes.netErr else FetchRes.http 200)
        (fun _ => true) RETRY_ATTEMPTS []
        [("gb".data, "x".data), ("gg".data, "y".data)] ("d".data) 0 none).1.2).length =
      (pySlice [(("gb".data : Str), ("x".data : Str)), ("gg".data, "y".data)] 0
        ((none : Option Nat).getD
          [(("gb".data : Str), ("x".data : Str)), ("gg".data, "y".data)].length)).length) ∧
    (targetPath ("d".data) ("x".data) ∉ ([] : List Str) ∧
      ((download_document (fun _ _ => FetchRes.netErr) (fun _ => true) RETRY_ATTEMPTS []
        ("gb".data) ("x".data) ("d".data)).1).name = "x".data) := by
  refine ⟨?_, ⟨by decide, ?_⟩⟩
  · exact c8_failure_isolation.2.1
      (fun g _ => if g == "gb".data then FetchRes.netErr else FetchRes.http 200)
      (fun _ => true) RETRY_ATTEMPTS []
      [("gb".data, "x".data), ("gg".data, "y".data)] ("d".data) 0 none
  · exact (c8_failure_isolation.2.2.2.1 (fun _ _ => FetchRes.netErr) (fun _ => true)
      RETRY_ATTEMPTS [] ("gb".data) ("x".data) ("d".data) (by decide)
      (fun i _ => rfl)).2

theorem length_filter_split {α : Type} (p q : α → Bool) :
    ∀ (l : List α),
      (l.filter p).length =
        (l.filter (fun x => p x && q x)).length +
        (l.filter (fun x => p x && !q x)).length := by
  intro l
  induction l with
  | nil => simp
  | cons a t ih =>
    by_cases hp : p a = true
    · by_cases hq : q a = true
      · simp [List.filter_cons, hp, hq, ih]
        omega
      · rw [Bool.not_eq_true] at hq
        simp [List.filter_cons, hp, hq, ih]
        omega
    · rw [Bool.not_eq_true] at hp
      simp [List.filter_cons, hp, ih]

theorem download_document_skipped_success (net : Str → Nat → FetchRes) (w : Str → Bool)
    (R : Nat) (fs : List Str) (g r dir : Str)
    (h : ((download_document net w R fs g r dir).1).skipped = true) :
    ((download_document net w R fs g r dir).1).success = true := by
  by_cases hmem : pathJoin dir (sanitize_filename r) ∈ fs
  · simp only [download_document, if_pos hmem]
  · simp only [download_document, if_neg hmem] at h ⊢
    rcases hrec : runAttempts (net g) (w g) 0 R with ⟨o, n, s⟩
    rw [hrec] at h
    cases o
    · rfl
    · exact Bool.noConfusion h
    · exact Bool.noConfusion h

/-- Claim C9, counterexample: neither orchestrator returns a skipped count,
and the sequential one does not return the failed references either.  Two
runs that differ in their skipped count (1 versus 0: the file pre-exists in
the first, is freshly downloaded in the second) produce identical return
values in both modes, so the return value cannot contain the skipped count;
and two sequential runs with different failed-reference lists (["r"] versus
[]) also return the same bare integer, so the sequential return does not
contain the failed references (its own docstring promises a
(total_downloaded, skipped) tuple, but the code returns only the count). -/
theorem c9_counterexample :
    (download_sequential (fun _ _ => FetchRes.http 200) (fun _ => true) RETRY_ATTEMPTS
        [targetPath ("d".data) ("r".data)] [("g".data, "r".data)] ("d".data) 0 none).1 =
      (download_sequential (fun _ _ => FetchRes.http 200) (fun _ => true) RETRY_ATTEMPTS
        [] [("g".data, "r".data)] ("d".data) 0 none).1 ∧
    skippedCount (download_sequential (fun _ _ => FetchRes.http 200) (fun _ => true)
        RETRY_ATTEMPTS [targetPath ("d".data) ("r".data)]
        [("g".data, "r".data)] ("d".data) 0 none).2.1 = 1 ∧
    skippedCount (download_sequential (fun _ _ => FetchRes.http 200) (fun _ => true)
        RETRY_ATTEMPTS [] [("g".data, "r".data)] ("d".data) 0 none).2.1 = 0 ∧
    (download_sequential (fun _ _ => FetchRes.netErr) (fun _ => true) RETRY_ATTEMPTS
        [] [("g".data, "r".data)] ("d".data) 0 none).1 =
      (download_sequential (fun _ _ => FetchRes.netErr) (fun _ => true) RETRY_ATTEMPTS
        [] [] ("d".data) 0 none).1 ∧
    failedDownloads (download_sequential (fun _ _ => FetchRes.netErr) (fun _ => true)
        RETRY_ATTEMPTS [] [("g".data, "r".data)] ("d".data) 0 none).2.1 = ["r".data] ∧
    failedDownloads (download_sequential (fun _ _ => FetchRes.netErr) (fun _ => true)
        RETRY_ATTEMPTS [] [] ("d".data) 0 none).2.1 = [] ∧
    (download_parallel (fun _ _ => FetchRes.http 200) (fun _ => true) RETRY_ATTEMPTS
        [targetPath ("d".data) ("r".data)] [("g".data, "r".data)] ("d".data) 0 none).1 =
      (download_parallel (fun _ _ => FetchRes.http 200) (fun _ => true) RETRY_ATTEMPTS
        [] [("g".data, "r".data)] ("d".data) 0 none).1 := by
  refine ⟨by decide, by decide, by decide, by decide, by decide, by decide, by decide⟩

/-- Claim C9 (amended): in sequential mode the Python return value is only
the total successful count; in parallel mode it is the pair of the total
successful count and the list of failed references; no mode returns a
skipped count.  Both modes report the same successful count on the same
inputs; the count decomposes as the number of skipped already-existing
files plus the number of fresh downloads (every skipped task is counted as
a success). -/
theorem c9_return_contract :
    (∀ (net : Str → Nat → FetchRes) (w : Str → Bool) (R : Nat) (fs : List Str)
      (docs : List (Str × Str)) (dir : Str) (s : Nat) (e : Option Nat),
      (download_sequential net w R fs docs dir s e).1 =
        (download_parallel net w R fs docs dir s e).1.1) ∧
    (∀ (net : Str → Nat → FetchRes) (w : Str → Bool) (R : Nat) (fs : List Str)
      (docs : List (Str × Str)) (dir : Str) (s : Nat) (e : Option Nat),
      (download_parallel net w R fs docs dir s e).1.1 =
        skippedCount ((download_parallel net w R fs docs dir s e).2.1) +
        (((download_parallel net w R fs docs dir s e).2.1).filter
          (fun (p : (Str × Str) × DlRes) => p.2.success && !p.2.skipped)).length) ∧
    (∀ (net : Str → Nat → FetchRes) (w : Str → Bool) (R : Nat) (fs : List Str)
      (docs : List (Str × Str)) (dir : Str) (s : Nat) (e : Option Nat),
      ∀ p ∈ (download_parallel net w R fs docs dir s e).2.1,
        p.2.skipped = true → p.2.success = true) := by
  refine ⟨?_, ?_, ?_⟩
  · intro net w R fs docs dir s e
    rw [download_sequential_eq, download_parallel_eq]
  · intro net w R fs docs dir s e
    rw [download_parallel_eq]
    simp only [totalDownloaded, skippedCount]
    have hss : ∀ p ∈ (runTasks net w R dir (pySlice docs s (e.getD docs.length)) fs).1,
        p.2.skipped = true → p.2.success = true :=
      runTasks_res_prop net w R dir (fun t res => res.skipped = true → res.success = true)
        (fun fs2 g r => download_document_skipped_success net w R fs2 g r dir) _ fs
    have hcong :
        ((runTasks net w R dir (pySlice docs s (e.getD docs.length)) fs).1).filter
            (fun p => p.2.skipped) =
          ((runTasks net w R dir (pySlice docs s (e.getD docs.length)) fs).1).filter
            (fun p => p.2.success && p.2.skipped) := by
      refine List.filter_congr ?_
      intro x hx
      by_cases hsk : x.2.skipped = true
      · rw [hsk, hss x hx hsk]
        rfl
      · rw [Bool.not_eq_true] at hsk
        rw [hsk, Bool.and_false]
    rw [hcong]
    exact length_filter_split (fun (p : (Str × Str) × DlRes) => p.2.success)
      (fun (p : (Str × Str) × DlRes) => p.2.skipped) _
  · intro net w R fs docs dir s e p hp
    rw [download_parallel_pairs] at hp
    exact runTasks_res_prop net w R dir (fun t res => res.skipped = true → res.success = true)
      (fun fs2 g r => download_document_skipped_success net w R fs2 g r dir) _ fs p hp

/-- Claim C9, witness: concrete instances of `c9_return_contract`. -/
theorem c9_return_contract_witness :
    (download_sequential (fun _ _ => FetchRes.http 200) (fun _ => true) RETRY_ATTEMPTS
        [] [("g".data, "r".data)] ("d".data) 0 none).1 =
      (download_parallel (fun _ _ => FetchRes.http 200) (fun _ => true) RETRY_ATTEMPTS
        [] [("g".data, "r".data)] ("d".data) 0 none).1.1 ∧
    ((⟨true, sanitize_filename ("r".data), 0, [], false, true⟩ : DlRes).skipped = true →
      (⟨true, sanitize_filename ("r".data), 0, [], false, true⟩ : DlRes).success = true) := by
  constructor
  · exact c9_return_contract.1 (fun _ _ => FetchRes.http 200) (fun _ => true)
      RETRY_ATTEMPTS [] [("g".data, "r".data)] ("d".data) 0 none
  · exact c9_return_contract.2.2 (fun _ _ => FetchRes.http 200) (fun _ => true)
      RETRY_ATTEMPTS [targetPath ("d".data) ("r".data)] [("g".data, "r".data)]
      ("d".data) 0 none
      (("g".data, "r".data), ⟨true, sanitize_filename ("r".data), 0, [], false, true⟩)
      (by decide)

/-- Claim C5: cache load returns None exactly when caching is disabled, the
cache file is absent, the file's age strictly exceeds the expiry threshold,
or the file content is unreadable/corrupt (a read or parse error is a cache
miss, never a fatal error); a fresh, valid, unexpired file loads as exactly
its deserialized list, so a load after a successful save within the expiry
window round-trips the saved list. -/
theorem c5_cache_load :
    (∀ (u : Bool) (e : Nat) (f : Option (Nat × Option (List RawDoc))),
      load_document_cache u e f = none ↔
        (u = false ∨ f = none ∨ (∃ a c, f = some (a, c) ∧ e < a) ∨
          (∃ a, f = some (a, none)))) ∧
    (∀ (u : Bool) (e a : Nat) (d : List RawDoc),
      load_document_cache u e (some (a, some d)) = some d ↔ (u = true ∧ a ≤ e)) ∧
    (∀ (e a : Nat) (d : List RawDoc) (f : Option (Nat × Option (List RawDoc))),
      a ≤ e →
      load_document_cache true e (ageFile a (save_document_cache true true d f)) = some d) := by
  refine ⟨?_, ?_, ?_⟩
  · intro u e f
    cases u
    · simp [load_document_cache]
    · rcases f with _ | ⟨a, c⟩
      · simp [load_document_cache]
      · rcases c with _ | d
        · have hl : load_document_cache true e (some (a, none)) = none := by
            by_cases hae : e < a <;> simp [load_document_cache, hae]
          rw [hl]
          simp only [eq_self_iff_true, true_iff]
          exact Or.inr (Or.inr (Or.inr ⟨a, rfl⟩))
        · by_cases hae : e < a
          · have hl : load_document_cache true e (some (a, some d)) = none := by
              simp [load_document_cache, hae]
            rw [hl]
            simp only [eq_self_iff_true, true_iff]
            exact Or.inr (Or.inr (Or.inl ⟨a, some d, rfl, hae⟩))
          · have hl : load_document_cache true e (some (a, some d)) = some d := by
              simp [load_document_cache, hae]
            rw [hl]
            simp [hae]
  · intro u e a d
    cases u
    · simp [load_document_cache]
    · by_cases hae : e < a
      · have hl : load_document_cache true e (some (a, some d)) = none := by
          simp [load_document_cache, hae]
        rw [hl]
        have hlt : ¬ a ≤ e := by omega
        simp [hlt]
      · have hl : load_document_cache true e (some (a, some d)) = some d := by
          simp [load_document_cache, hae]
        rw [hl]
        have hle : a ≤ e := by omega
        simp [hle]
  · intro e a d f h
    have hae : ¬ e < a := by omega
    simp [save_document_cache, ageFile, load_document_cache, hae]

/-- Claim C5, witness: a concrete instance of `c5_cache_load`. -/
theorem c5_cache_load_witness :
    (0 ≤ CACHE_EXPIRY) ∧
    load_document_cache true CACHE_EXPIRY
      (ageFile 0 (save_document_cache true true [] none)) = some [] := by
  constructor
  · exact Nat.zero_le _
  · exact c5_cache_load.2.2 CACHE_EXPIRY 0 [] none (Nat.zero_le _)

theorem startsWithL_iff (p : Str) :
    ∀ (s : Str), startsWithL s p = true ↔ ∃ t, s = p ++ t := by
  induction p with
  | nil =>
    intro s
    simp [startsWithL]
  | cons d ds ih =>
    intro s
    rcases s with _ | ⟨c, cs⟩
    · simp [startsWithL]
    · simp only [startsWithL, Bool.and_eq_true, beq_iff_eq, ih cs, List.cons_append,
        List.cons_eq_cons]
      constructor
      · rintro ⟨rfl, t, rfl⟩
        exact ⟨t, rfl, rfl⟩
      · rintro ⟨t, rfl, rfl⟩
        exact ⟨rfl, t, rfl⟩

theorem hasSub_iff (p : Str) :
    ∀ (s : Str), hasSub s p = true ↔ ∃ l t, s = l ++ (p ++ t) := by
  intro s
  induction s with
  | nil =>
    simp only [hasSub, startsWithL_iff]
    constructor
    · rintro ⟨t, ht⟩
      exact ⟨[], t, ht⟩
    · rintro ⟨l, t, ht⟩
      rcases List.append_eq_nil.mp ht.symm with ⟨rfl, h2⟩
      exact ⟨t, by simpa using ht⟩
  | cons c cs ih =>
    simp only [hasSub, Bool.or_eq_true, startsWithL_iff, ih]
    constructor
    · rintro (⟨t, ht⟩ | ⟨l, t, ht⟩)
      · exact ⟨[], t, by simpa using ht⟩
      · exact ⟨c :: l, t, by simp [ht]⟩
    · rintro ⟨l, t, ht⟩
      rcases l with _ | ⟨a, l2⟩
      · exact Or.inl ⟨t, by simpa using ht⟩
      · simp only [List.cons_append, List.cons_eq_cons] at ht
        exact Or.inr ⟨l2, t, ht.2⟩

/-- Claim C10: a document from the listing is selected if and only if it has
both the 'Guid' and the 'Doc_Ref2' key and the configured type-filter string
occurs as a (contiguous, not necessarily equal) substring of its 'Doc_Type'
value (absent 'Doc_Type' is read as the empty string by `doc.get`); the
selected task is the pair (Guid, Doc_Ref2); and the filtered list preserves
the relative order of the input listing (selection distributes over
concatenation and is characterized on singletons). -/
theorem c10_filter_documents :
    (∀ (f : Str) (d1 d2 : List RawDoc),
      filterDocuments f (d1 ++ d2) = filterDocuments f d1 ++ filterDocuments f d2) ∧
    (∀ (f : Str) (d : RawDoc) (g r : Str), d.guid = some g → d.docRef2 = some r →
      (∃ l t, d.docType.getD [] = l ++ (f ++ t)) →
      filterDocuments f [d] = [(g, r)]) ∧
    (∀ (f : Str) (d : RawDoc) (g r : Str), d.guid = some g → d.docRef2 = some r →
      (¬ ∃ l t, d.docType.getD [] = l ++ (f ++ t)) →
      filterDocuments f [d] = []) ∧
    (∀ (f : Str) (d : RawDoc), d.guid = none → filterDocuments f [d] = []) ∧
    (∀ (f : Str) (d : RawDoc), d.docRef2 = none → filterDocuments f [d] = []) := by
  refine ⟨?_, ?_, ?_, ?_, ?_⟩
  · intro f d1 d2
    induction d1 with
    | nil => simp [filterDocuments]
    | cons d rest ih =>
      simp only [List.cons_append, filterDocuments, List.foldr_cons] at ih ⊢
      rcases d.guid with _ | g
      · exact ih
      · rcases d.docRef2 with _ | r
        · exact ih
        · by_cases hf : hasSub (d.docType.getD []) f = true
          · simp [hf, ih]
          · rw [Bool.not_eq_true] at hf
            simp [hf, ih]
  · intro f d g r hg hr hsub
    rw [← hasSub_iff] at hsub
    simp [filterDocuments, hg, hr, hsub]
  · intro f d g r hg hr hsub
    rw [← hasSub_iff] at hsub
    rw [Bool.not_eq_true] at hsub
    simp [filterDocuments, hg, hr, hsub]
  · intro f d hg
    simp [filterDocuments, hg]
  · intro f d hr
    rcases hg : d.guid with _ | g
    · simp [filterDocuments, hg]
    · simp [filterDocuments, hg, hr]

/-- Claim C10, witness: concrete instances of `c10_filter_documents`. -/
theorem c10_filter_documents_witness :
    filterDocuments ("Plan".data)
        [(⟨some ("g1".data), some ("r1".data), some ("Planning Comments".data)⟩ : RawDoc)] =
      [(("g1".data : Str), ("r1".data : Str))] ∧
    filterDocuments ("Plan".data)
        [(⟨none, some ("r2".data), some ("Planning Comments".data)⟩ : RawDoc)] = [] := by
  constructor
  · exact c10_filter_documents.2.1 ("Plan".data)
      ⟨some ("g1".data), some ("r1".data), some ("Planning Comments".data)⟩
      ("g1".data) ("r1".data) rfl rfl
      ⟨[], "ning Comments".data, by decide⟩
  · exact c10_filter_documents.2.2.2.1 ("Plan".data)
      ⟨none, some ("r2".data), some ("Planning Comments".data)⟩ rfl

end Downloader
